import Mathlib

/-!
Verification of efiver.py (HandyScripts), firmware-image introspection engine.

Embedding conventions:
* a firmware image buffer is a `List Nat` of byte values (real files have all
  entries below 256; theorems that need this state it as a hypothesis);
* a Python `str` is a `List Char`; `"...".data` writes a concrete literal;
* Python `f.read(n)` after `f.seek(pos)` is `readBytes buf pos n`, which is
  short when the read runs past the end of the file, exactly like Python;
* the unbounded `while` scans of the script are given explicit fuel; `none`
  means the loop has not exited within the given number of iterations, so a
  result that is `none` for every fuel value is a non-terminating loop;
* `decode('utf-8')` is dropped: every buffer the claims speak about holds
  ASCII and NUL bytes, on which the decode is the identity on code points,
  so version records are kept as byte lists.
-/

set_option maxRecDepth 8000

namespace EFIVer

/-! ### Byte-buffer primitives -/

/-- Python file read at a seek position: the bytes of the buffer starting at
`pos`, at most `len` of them (a short list when the read runs past the end of
the file, like Python's `f.read`). -/
def readBytes (buf : List Nat) (pos len : Nat) : List Nat :=
  (buf.drop pos).take len

/-- The 8 marker bytes searched by `EFI.getVersion`
(`\x24\x49\x42\x49\x4F\x53\x49\x24`, the ASCII text between dollar signs). -/
def ibiosiMarker : List Nat := [0x24, 0x49, 0x42, 0x49, 0x4F, 0x53, 0x49, 0x24]

/-- The all-0xFF 8-byte sentinel marking an unused board-id slot in
`BoardID.getIDs`. -/
def ffSentinel : List Nat := [0xFF, 0xFF, 0xFF, 0xFF, 0xFF, 0xFF, 0xFF, 0xFF]

/-- The 16 bytes of the Apple UUID `C3E36D09-8294-4B97-A857-D5288FE33E28`
searched by the MP51 branch of `GUID.search`
(hex `096de3c39482974ba857d5288fe33e28`). -/
def patternA : List Nat :=
  [0x09, 0x6d, 0xe3, 0xc3, 0x94, 0x82, 0x97, 0x4b,
   0xa8, 0x57, 0xd5, 0x28, 0x8f, 0xe3, 0x3e, 0x28]

/-! ### Python string primitives -/

/-- Python `s.split(sep)` for a one-character separator: splits at every
occurrence, keeping empty fields (`pySplit '.' [] = [[]]`, like
`''.split('.') == ['']`). -/
def pySplit {α : Type} [DecidableEq α] (sep : α) : List α → List (List α)
  | [] => [[]]
  | c :: cs =>
    let r := pySplit sep cs
    if c = sep then [] :: r
    else (c :: r.headD []) :: r.tail

/-- Python `s.startswith(pre)`: character-by-character comparison of the
candidate prefix against the front of the string. -/
def pyStartswith : List Char → List Char → Bool
  | [], _ => true
  | p :: ps, s =>
    match s with
    | [] => false
    | c :: cs => if p = c then pyStartswith ps cs else false

/-- Python `<` on strings: lexicographic comparison by code point, a proper
prefix being smaller. -/
def pyStrLt : List Char → List Char → Bool
  | [], [] => false
  | [], _ :: _ => true
  | _ :: _, [] => false
  | a :: as, b :: bs => if a < b then true else if b < a then false else pyStrLt as bs

/-- Python `'.'.join(fields)`: the fields in order with one separator between
consecutive fields.  Used only to state what a well-formed dot-delimited
record contains. -/
def joinWith {α : Type} (sep : α) : List (List α) → List α
  | [] => []
  | [f] => f
  | f :: fs => f ++ sep :: joinWith sep fs

/-! ### VersionStringLocator: EFI.getVersion -/

/-- The forward branch of the marker loop in `EFI.getVersion`: read 8 bytes at
the current position; on a mismatch advance the position by 4 and retry.
Fuel bounds the number of loop iterations inspected; the script's own loop is
unbounded. -/
def scanFwd (buf : List Nat) : Nat → Nat → Option Nat
  | _, 0 => none
  | position, fuel + 1 =>
    if readBytes buf position 8 = ibiosiMarker then some position
    else scanFwd buf (position + 4) fuel

/-- The backward branch of the marker loop in `EFI.getVersion`: read 8 bytes
at the current position; on a mismatch move the position back by 4 and retry. -/
def scanBack (buf : List Nat) : Nat → Nat → Option Nat
  | _, 0 => none
  | position, fuel + 1 =>
    if readBytes buf position 8 = ibiosiMarker then some position
    else scanBack buf (position - 4) fuel

/-- The direction dispatch of `EFI.getVersion`: positions above 4096 scan
backward, all others forward.  The test is made once, on the starting
position, exactly as in the script. -/
def findMarker (buf : List Nat) (position fuel : Nat) : Option Nat :=
  if position > 4096 then scanBack buf position fuel
  else scanFwd buf position fuel

/-- `EFI.getVersion`: seek to the starting position, scan for the marker in
4-byte steps (direction chosen by the 4096 threshold), then read the 0x41-byte
version record that follows the marker.  The record is returned as raw bytes;
the script's `decode('utf-8')` is the identity on the ASCII/NUL content the
records hold, and it does not remove the interleaved NUL bytes. -/
def EFI.getVersion (buf : List Nat) (position fuel : Nat) : Option (List Nat) :=
  (findMarker buf position fuel).map (fun p => readBytes buf (p + 8) 0x41)

/-! ### IdentifierTableWalker: BoardID.getIDs -/

/-- One uppercase hexadecimal digit, as produced by
`binascii.hexlify(..).upper()`. -/
def hexDigitUpper (n : Nat) : Char :=
  if n < 10 then Char.ofNat (48 + n) else Char.ofNat (55 + n)

/-- `binascii.hexlify(code).upper()`: two uppercase hexadecimal characters per
byte, high nibble first. -/
def hexChars (code : List Nat) : List Char :=
  code.flatMap (fun b => [hexDigitUpper (b / 16), hexDigitUpper (b % 16)])

/-- The rendering `"Mac-%s" % binascii.hexlify(boardID).upper()` of
`BoardID.getIDs`. -/
def renderBoardID (code : List Nat) : List Char :=
  "Mac-".data ++ hexChars code

/-- The `while count > 1` loop of `BoardID.getIDs`, with `count - 1` remaining
iterations as the recursion measure (the script starts at `count = 15`, so 14
iterations).  Each iteration advances 8 bytes, reads an 8-byte candidate code,
stops on the all-0xFF sentinel, and otherwise keeps the code, advancing 2
extra bytes when `trailingBytes` is set. -/
def getIDsAux (buf : List Nat) (trailingBytes : Bool) : Nat → Nat → List (List Nat)
  | _, 0 => []
  | position, count + 1 =>
    let position2 := position + 8
    let boardID := readBytes buf position2 8
    if boardID = ffSentinel then []
    else boardID ::
      getIDsAux buf trailingBytes (if trailingBytes then position2 + 2 else position2) count

/-- `BoardID.getIDs`: skip the 20 bytes of GUID plus structure head after the
anchor, then walk up to 14 slots, rendering each non-sentinel code. -/
def BoardID.getIDs (buf : List Nat) (position : Nat) (trailingBytes : Bool) :
    List (List Char) :=
  (getIDsAux buf trailingBytes (position + 20) 14).map renderBoardID

/-- The distance between consecutive slot reads of `BoardID.getIDs`: 8 bytes,
plus the 2 trailing bytes when the flag is set. -/
def slotStride (trailingBytes : Bool) : Nat :=
  if trailingBytes then 10 else 8

/-! ### ModelIdentifierRegistry -/

/-- The static board-id/model table `boardIDModelIDs` of efiver.py, in file
order. -/
def boardIDModelIDs : List (String × String) := [
  ("Mac-F22C8AC8", "MacBook6,1"),
  ("Mac-F22C89C8", "MacBook7,1"),
  ("Mac-BE0E8AC46FE800CC", "MacBook8,1"),
  ("Mac-F305150B0C7DEEEF", "MacBook8,x"),
  ("Mac-9AE82516C7C6B903", "MacBook9,1"),
  ("Mac-EE2EBD4B90B839A8", "MacBook10,1"),
  ("Mac-F22589C8", "MacBookPro6,1"),
  ("Mac-F22586C8", "MacBookPro6,2"),
  ("Mac-F222BEC8", "MacBookPro7,1"),
  ("Mac-94245B3640C91C81", "MacBookPro8,1"),
  ("Mac-94245A3940C91C80", "MacBookPro8,2"),
  ("Mac-942459F5819B171B", "MacBookPro8,3"),
  ("Mac-4B7AC7E43945597E", "MacBookPro9,1"),
  ("Mac-6F01561E16C75D06", "MacBookPro9,2"),
  ("Mac-C3EC7CD22292981F", "MacBookPro10,1"),
  ("Mac-AFD8A9D944EA4843", "MacBookPro10,2"),
  ("Mac-189A3D4F975D5FFC", "MacBookPro11,1"),
  ("Mac-D1FF70AF6D8C849A", "MacBookPro11,x"),
  ("Mac-3CBD00234E554E41", "MacBookPro11,2"),
  ("Mac-2BD1B31983FE1663", "MacBookPro11,3"),
  ("Mac-06F11FD93F0323C5", "MacBookPro11,4"),
  ("Mac-06F11F11946D27C5", "MacBookPro11,5"),
  ("Mac-E43C1C25D4880AD6", "MacBookPro12,1"),
  ("Mac-473D31EABEB93F9B", "MacBookPro13,1"),
  ("Mac-66E35819EE2D0D05", "MacBookPro13,2"),
  ("Mac-1BDAB09B689867E2", "MacBookPro13,x"),
  ("Mac-A5C67F76ED83108C", "MacBookPro13,3"),
  ("Mac-B4831CEBD52A0C4C", "MacBookPro14,1"),
  ("Mac-CAD6701F7CEA0921", "MacBookPro14,2"),
  ("Mac-551B86E5744E2388", "MacBookPro14,3"),
  ("Mac-942452F5819B1C1B", "MacBookAir3,1"),
  ("Mac-942C5DF58193131B", "MacBookAir3,2"),
  ("Mac-C08A6BB70A942AC2", "MacBookAir4,1"),
  ("Mac-742912EFDBEE19B3", "MacBookAir4,2"),
  ("Mac-66F35F19FE2A0D05", "MacBookAir5,1"),
  ("Mac-2E6FAB96566FE58C", "MacBookAir5,2"),
  ("Mac-35C1E88140C3E6CF", "MacBookAir6,1"),
  ("Mac-7DF21CB3ED6977E5", "MacBookAir6,2"),
  ("Mac-9F18E312C5C2BF0B", "MacBookAir7,1"),
  ("Mac-937CB26E2E02BB01", "MacBookAir7,2"),
  ("Mac-F2268CC8", "iMac10,1"),
  ("Mac-F2268DAE", "iMac11,1"),
  ("Mac-F2238AC8", "iMac11,2"),
  ("Mac-F2238BAE", "iMac11,3"),
  ("Mac-942B5BF58194151B", "iMac12,1"),
  ("Mac-942B59F58194171B", "iMac12,2"),
  ("Mac-00BE6ED71E35EB86", "iMac13,1"),
  ("Mac-FC02E91DDD3FA6A4", "iMac13,2"),
  ("Mac-7DF2A3B5E5D671ED", "iMac13,3"),
  ("Mac-031B6874CF7F642A", "iMac14,1"),
  ("Mac-27ADBB7B4CEE8E61", "iMac14,2"),
  ("Mac-77EB7D7DAF985301", "iMac14,3"),
  ("Mac-81E3E92DD6088272", "iMac14,4"),
  ("Mac-FA842E06C61E91C5", "iMac15,1"),
  ("Mac-42FD25EABCABB274", "iMac15,1"),
  ("Mac-A369DDC4E67F1C45", "iMac16,1"),
  ("Mac-FFE5EF870D7BA81A", "iMac16,2"),
  ("Mac-DB15BD556843C820", "iMac17,1"),
  ("Mac-65CE76090165799A", "iMac17,1"),
  ("Mac-B809C3757DA9BB8D", "iMac17,1"),
  ("Mac-4B682C642B45593E", "iMac18,1"),
  ("Mac-77F17D7DA9285301", "iMac18,2"),
  ("Mac-BE088AF8C5EB4FA2", "iMac18,3"),
  ("Mac-F2208EC8", "Macmini4,1"),
  ("Mac-8ED6AF5B48C039E1", "Macmini5,1"),
  ("Mac-4BC72D62AD45599E", "Macmini5,2"),
  ("Mac-7BA5B2794B2CDB12", "Macmini5,3"),
  ("Mac-031AEE4D24BFF0B1", "Macmini6,1"),
  ("Mac-F65AE981FFA204ED", "Macmini6,2"),
  ("Mac-35C5E08120C7EEAF", "Macmini7,1"),
  ("Mac-F221BEC8", "MacPro4,1"),
  ("Mac-F221DCC8", "MacPro5,1"),
  ("Mac-F60DEB81FF30ACF6", "MacPro6,1"),
  ("Mac-7BA5B2D9E42DDD94", "iMacPro1,1"),
  ("Mac-CF21D135A7D34AA6", "Unknown"),
  ("Mac-112B0A653D3AAB9C", "Unknown"),
  ("Mac-90BE64C3CB5A9AEB", "Unknown")]

/-- `BoardID.getByModelID`: first table entry whose model name equals the
argument, else the literal Unknown. -/
def BoardID.getByModelID (modelID : String) : String :=
  match boardIDModelIDs.find? (fun x => modelID == x.2) with
  | some x => x.1
  | none => "Unknown"

/-- `Model.getByBoardID`: first table entry whose board-id equals the
argument, else the literal Unknown. -/
def Model.getByBoardID (boardID : String) : String :=
  match boardIDModelIDs.find? (fun x => boardID == x.1) with
  | some x => x.2
  | none => "Unknown"

/-- `Model.getID`: keep the digits of the token, split them into all-but-last
and last, and choose the family by testing the token's prefix in the order the
script tests it: IM first, then IMP, MBP, MBA, MB, MM, MP.  Python's negative
slices `number[:x]` with `x = len(number) - 1` and `number[-1:]` agree with
`take (length - 1)` and `drop (length - 1)` on every list, the empty one
included. -/
def Model.getID (id : List Char) : List Char :=
  let number := id.filter Char.isDigit
  let x := number.length - 1
  if pyStartswith "IM".data id then "iMac".data ++ number.take x ++ [','] ++ number.drop x
  else if pyStartswith "IMP".data id then "iMacPro".data ++ number.take x ++ [','] ++ number.drop x
  else if pyStartswith "MBP".data id then "MacBookPro".data ++ number.take x ++ [','] ++ number.drop x
  else if pyStartswith "MBA".data id then "MacBookAir".data ++ number.take x ++ [','] ++ number.drop x
  else if pyStartswith "MB".data id then "MacBook".data ++ number.take x ++ [','] ++ number.drop x
  else if pyStartswith "MM".data id then "Macmini".data ++ number.take x ++ [','] ++ number.drop x
  else if pyStartswith "MP".data id then "MacPro".data ++ number.take x ++ [','] ++ number.drop x
  else "Unknown".data

/-! ### UpdateAdvisor: EFI.shouldWarnAboutUpdate -/

/-- `EFI.shouldWarnAboutUpdate`: on Darwin, compare the fifth dot-delimited
field of the raw reference version against the fifth field of the candidate
with its NUL characters removed, by Python string `<`; on any other platform
return False.  The platform test is passed in as a boolean environment
input. -/
def EFI.shouldWarnAboutUpdate (isDarwin : Bool) (rawVersion biosID : List Char) : Bool :=
  if isDarwin then
    let myBiosDate := (pySplit '.' rawVersion).getD 4 []
    let biosDate := ((pySplit '.' biosID).getD 4 []).filter (fun c => c ≠ '\x00')
    pyStrLt myBiosDate biosDate
  else false

/-! ### AnchorLocator routing: oldStyleFWModels, GUID.shouldPerformCheck,
GUID.search dispatch in main -/

/-- The fixed allow-list `oldStyleFWModels` of family codes whose images use
the unsupported older layout. -/
def oldStyleFWModels : List (List Char) := [
  "MB51".data, "MB52".data, "MB61".data, "MB71".data,
  "MBP41".data, "MBP51".data, "MBP52".data, "MBP53".data,
  "MBP55".data, "MBP61".data, "MBP71".data, "MBP81".data,
  "MBP91".data, "MBP101".data, "MBP102".data, "MBA21".data,
  "MBA31".data, "MBA41".data, "MBA51".data, "IM81".data,
  "IM91".data, "IM101".data, "IM111".data, "IM112".data,
  "IM121".data, "IM131".data, "MM32".data, "MM41".data,
  "MM51".data, "MM61".data, "MP51".data, "MP61".data]

/-- `GUID.shouldPerformCheck`: take the file name's text before the first
underscore (Python `filename.split('_')[0]`); the check is skipped exactly
when that text is in `oldStyleFWModels`. -/
def GUID.shouldPerformCheck (filename : List Char) : Bool :=
  !(oldStyleFWModels.contains ((pySplit '_' filename).headD []))

/-- The three ways `main` can route one firmware image: skip the GUID search
entirely (old-style name), the MP51 forward scan branch of `GUID.search`, or
the fixed-candidate-offsets branch of `GUID.search`. -/
inductive ScanRoute : Type where
  | skipTable : ScanRoute
  | mp51Scan : ScanRoute
  | fixedCandidates : ScanRoute
deriving DecidableEq

/-- The routing decision of `main` for one image: `GUID.shouldPerformCheck`
gates the whole GUID search; inside `GUID.search` the branch is chosen by
`filename.startswith('MP51')`. -/
def route (filename : List Char) : ScanRoute :=
  if GUID.shouldPerformCheck filename then
    if pyStartswith "MP51".data filename then ScanRoute.mp51Scan
    else ScanRoute.fixedCandidates
  else ScanRoute.skipTable

/-! ### The MP51 branch of GUID.search -/

/-- One-iteration-at-a-time model of the MP51 `while` loop of `GUID.search`,
tracking both the scan position and the file pointer `fp` separately, because
the loop seeks only when the position still advances: read 16 bytes at the
file pointer; on a match return the position; otherwise, if
`position < filesize - 8`, advance the position by 4 and seek there; else
leave the position alone, so the file pointer merely moves past the bytes just
read (at end of file it stays put and every further read is empty).  `none`
means the loop has not exited within `fuel` iterations. -/
def mp51ScanFuel (buf : List Nat) (filesize : Nat) : Nat → Nat → Nat → Option Nat
  | 0, _, _ => none
  | fuel + 1, position, fp =>
    if readBytes buf fp 16 = patternA then some position
    else if position < filesize - 8 then mp51ScanFuel buf filesize fuel (position + 4) (position + 4)
    else mp51ScanFuel buf filesize fuel position (min (fp + 16) buf.length)

/-- Uppercase hexadecimal alphabet membership, used to state the shape of a
rendered board-id. -/
def isUpperHex (c : Char) : Bool :=
  c.isDigit || ('A' ≤ c && c ≤ 'F')

/-- The 29 ASCII characters of the example version string documented in the
comment inside `EFI.getVersion` (`IM101.88Z.00CF.B00.1708080133`), as a byte
list. -/
def exampleVersionBytes : List Nat :=
  "IM101.88Z.00CF.B00.1708080133".data.map Char.toNat

/-- The example 0x41-byte version record documented in the comment inside
`EFI.getVersion`: each text byte followed by a NUL byte, padded with NUL bytes
to 65 bytes in total. -/
def exampleRecord : List Nat :=
  exampleVersionBytes.flatMap (fun b => [b, 0]) ++ List.replicate 7 0

/-- The five dot-delimited fields of the example version string, as byte
lists. -/
def exampleFields : List (List Nat) :=
  ["IM101".data.map Char.toNat, "88Z".data.map Char.toNat,
    "00CF".data.map Char.toNat, "B00".data.map Char.toNat,
    "1708080133".data.map Char.toNat]

/-- A 166-byte test image: a 28-byte header region, one valid board-id code,
the sentinel slot, and filler covering every remaining table slot. -/
def sampleTableImage : List Nat :=
  List.replicate 28 0 ++ (List.replicate 7 0 ++ [1]) ++ ffSentinel ++
    List.replicate 122 7

/-! ## Helper lemmas -/

theorem pySplit_no_sep {α : Type} [DecidableEq α] (sep : α) (f : List α)
    (h : sep ∉ f) : pySplit sep f = [f] := by
  induction f with
  | nil => rfl
  | cons c cs ih =>
    have hc : ¬ c = sep := fun hcs => h (hcs ▸ List.mem_cons_self c cs)
    have hcs : sep ∉ cs := fun hm => h (List.mem_cons_of_mem c hm)
    simp [pySplit, hc, ih hcs]

theorem pySplit_append {α : Type} [DecidableEq α] (sep : α) (f rest : List α)
    (h : sep ∉ f) : pySplit sep (f ++ sep :: rest) = f :: pySplit sep rest := by
  induction f with
  | nil => simp [pySplit]
  | cons c cs ih =>
    have hc : ¬ c = sep := fun hcs => h (hcs ▸ List.mem_cons_self c cs)
    have hcs : sep ∉ cs := fun hm => h (List.mem_cons_of_mem c hm)
    simp [pySplit, hc, ih hcs]

theorem pySplit_joinWith {α : Type} [DecidableEq α] (sep : α) :
    ∀ fields : List (List α), fields ≠ [] → (∀ f ∈ fields, sep ∉ f) →
      pySplit sep (joinWith sep fields) = fields
  | [], h, _ => absurd rfl h
  | [f], _, hf => by
      simpa [joinWith] using pySplit_no_sep sep f (hf f (List.mem_singleton.mpr rfl))
  | f :: g :: fs, _, hf => by
      have hj : joinWith sep (f :: g :: fs) = f ++ sep :: joinWith sep (g :: fs) := rfl
      rw [hj, pySplit_append sep f _ (hf f (List.mem_cons_self f _)),
        pySplit_joinWith sep (g :: fs) (List.cons_ne_nil g fs)
          (fun x hx => hf x (List.mem_cons_of_mem f hx))]

theorem pyStartswith_iff : ∀ p s : List Char, pyStartswith p s = true ↔ p <+: s
  | [], s => iff_of_true rfl List.nil_prefix
  | p :: ps, [] => by
      refine iff_of_false (by simp [pyStartswith]) (fun h => ?_)
      have := h.length_le
      simp at this
  | p :: ps, c :: cs => by
      rw [List.cons_prefix_cons]
      by_cases hpc : p = c
      · have step : pyStartswith (p :: ps) (c :: cs) = pyStartswith ps cs := by
          simp [pyStartswith, hpc]
        rw [step, pyStartswith_iff ps cs]
        simp [hpc]
      · have step : pyStartswith (p :: ps) (c :: cs) = false := by
          simp [pyStartswith, hpc]
        rw [step]
        simp [hpc]

theorem scanFwd_finds (buf : List Nat) (k : Nat) :
    ∀ (o fuel : Nat), k < fuel →
      (∀ j, j < k → readBytes buf (o + 4 * j) 8 ≠ ibiosiMarker) →
      readBytes buf (o + 4 * k) 8 = ibiosiMarker →
      scanFwd buf o fuel = some (o + 4 * k) := by
  induction k with
  | zero =>
    intro o fuel hf _ hm
    obtain ⟨f, rfl⟩ : ∃ f, fuel = f + 1 := ⟨fuel - 1, by omega⟩
    simp only [Nat.mul_zero, Nat.add_zero] at hm ⊢
    simp [scanFwd, hm]
  | succ k ih =>
    intro o fuel hf hj hm
    obtain ⟨f, rfl⟩ : ∃ f, fuel = f + 1 := ⟨fuel - 1, by omega⟩
    have h0 : ¬ readBytes buf o 8 = ibiosiMarker := by
      have := hj 0 (by omega)
      simpa using this
    have hrec := ih (o + 4) f (by omega)
      (fun j hjk => by
        have := hj (j + 1) (by omega)
        have e : o + 4 * (j + 1) = o + 4 + 4 * j := by omega
        rwa [e] at this)
      (by
        have e : o + 4 * (k + 1) = o + 4 + 4 * k := by omega
        rwa [e] at hm)
    rw [show scanFwd buf o (f + 1) =
        (if readBytes buf o 8 = ibiosiMarker then some o else scanFwd buf (o + 4) f) from rfl,
      if_neg h0, hrec]
    congr 1
    omega

theorem scanBack_finds (buf : List Nat) (k : Nat) :
    ∀ (o fuel : Nat), k < fuel → 4 * k ≤ o →
      (∀ j, j < k → readBytes buf (o - 4 * j) 8 ≠ ibiosiMarker) →
      readBytes buf (o - 4 * k) 8 = ibiosiMarker →
      scanBack buf o fuel = some (o - 4 * k) := by
  induction k with
  | zero =>
    intro o fuel hf _ _ hm
    obtain ⟨f, rfl⟩ : ∃ f, fuel = f + 1 := ⟨fuel - 1, by omega⟩
    simp only [Nat.mul_zero, Nat.sub_zero] at hm ⊢
    simp [scanBack, hm]
  | succ k ih =>
    intro o fuel hf hk hj hm
    obtain ⟨f, rfl⟩ : ∃ f, fuel = f + 1 := ⟨fuel - 1, by omega⟩
    have h0 : ¬ readBytes buf o 8 = ibiosiMarker := by
      have := hj 0 (by omega)
      simpa using this
    have hrec := ih (o - 4) f (by omega) (by omega)
      (fun j hjk => by
        have := hj (j + 1) (by omega)
        have e : o - 4 * (j + 1) = o - 4 - 4 * j := by omega
        rwa [e] at this)
      (by
        have e : o - 4 * (k + 1) = o - 4 - 4 * k := by omega
        rwa [e] at hm)
    rw [show scanBack buf o (f + 1) =
        (if readBytes buf o 8 = ibiosiMarker then some o else scanBack buf (o - 4) f) from rfl,
      if_neg h0, hrec]
    congr 1
    omega

theorem slotStride_shift (t : Bool) (pos i : Nat) :
    (if t then pos + 8 + 2 else pos + 8) + 8 + i * slotStride t =
      pos + 8 + (i + 1) * slotStride t := by
  cases t <;> simp [slotStride] <;> ring

theorem getIDsAux_spec (buf : List Nat) (t : Bool) :
    ∀ (cs : List (List Nat)) (r pos : Nat), cs.length ≤ r →
      (∀ i, i < cs.length →
        readBytes buf (pos + 8 + i * slotStride t) 8 = cs.getD i [] ∧
          cs.getD i [] ≠ ffSentinel) →
      (cs.length < r → readBytes buf (pos + 8 + cs.length * slotStride t) 8 = ffSentinel) →
      getIDsAux buf t pos r = cs := by
  intro cs
  induction cs with
  | nil =>
    intro r pos _ _ hs
    cases r with
    | zero => rfl
    | succ n =>
      have hz := hs (by simp)
      simp only [List.length_nil, Nat.zero_mul, Nat.add_zero] at hz
      simp [getIDsAux, hz]
  | cons c cs ih =>
    intro r pos hlen hi hs
    cases r with
    | zero => exact absurd hlen (by simp)
    | succ n =>
      have h0 := hi 0 (by simp)
      simp only [List.getD_cons_zero, Nat.zero_mul, Nat.add_zero] at h0
      have step : getIDsAux buf t pos (n + 1) =
          c :: getIDsAux buf t (if t then pos + 8 + 2 else pos + 8) n := by
        simp [getIDsAux, h0.1, h0.2]
      rw [step]
      congr 1
      apply ih n (if t then pos + 8 + 2 else pos + 8) (by simpa using hlen)
      · intro i hilt
        have := hi (i + 1) (by simpa using Nat.succ_lt_succ hilt)
        rwa [List.getD_cons_succ, ← slotStride_shift] at this
      · intro hltn
        have := hs (by simpa using Nat.succ_lt_succ hltn)
        rwa [List.length_cons, ← slotStride_shift] at this

theorem getIDsAux_mem (buf : List Nat) (t : Bool) :
    ∀ (r pos : Nat) (s : List Nat), s ∈ getIDsAux buf t pos r →
      ∃ i, i < r ∧ s = readBytes buf (pos + 8 + i * slotStride t) 8 ∧ s ≠ ffSentinel := by
  intro r
  induction r with
  | zero =>
    intro pos s h
    simp [getIDsAux] at h
  | succ n ih =>
    intro pos s h
    by_cases hc : readBytes buf (pos + 8) 8 = ffSentinel
    · rw [show getIDsAux buf t pos (n + 1) = [] from by simp [getIDsAux, hc]] at h
      simp at h
    · rw [show getIDsAux buf t pos (n + 1) =
          readBytes buf (pos + 8) 8 ::
            getIDsAux buf t (if t then pos + 8 + 2 else pos + 8) n from by
          simp [getIDsAux, hc]] at h
      rcases List.mem_cons.mp h with h1 | h2
      · exact ⟨0, by omega, by simpa using h1, h1 ▸ hc⟩
      · obtain ⟨i, hir, hsv, hns⟩ := ih _ s h2
        refine ⟨i + 1, by omega, ?_, hns⟩
        rw [hsv, slotStride_shift]

theorem hexDigitUpper_isUpperHex : ∀ n, n < 16 → isUpperHex (hexDigitUpper n) = true := by
  decide

theorem hexDigitUpper_inj : ∀ x, x < 16 → ∀ y, y < 16 →
    hexDigitUpper x = hexDigitUpper y → x = y := by
  decide

theorem hexChars_inj : ∀ c1 c2 : List Nat, (∀ b ∈ c1, b < 256) → (∀ b ∈ c2, b < 256) →
    hexChars c1 = hexChars c2 → c1 = c2
  | [], [], _, _, _ => rfl
  | [], b :: bs, _, _, h => by simp [hexChars] at h
  | a :: as, [], _, _, h => by simp [hexChars] at h
  | a :: as, b :: bs, h1, h2, h => by
      have ha : a < 256 := h1 a (List.mem_cons_self a as)
      have hb : b < 256 := h2 b (List.mem_cons_self b bs)
      have hstep : hexChars (a :: as) =
          hexDigitUpper (a / 16) :: hexDigitUpper (a % 16) :: hexChars as := rfl
      have hstep2 : hexChars (b :: bs) =
          hexDigitUpper (b / 16) :: hexDigitUpper (b % 16) :: hexChars bs := rfl
      rw [hstep, hstep2] at h
      have e1 : a / 16 = b / 16 :=
        hexDigitUpper_inj (a / 16) (by omega) (b / 16) (by omega) (by
          exact (List.cons.injEq _ _ _ _ ▸ h).1)
      have e2 : a % 16 = b % 16 :=
        hexDigitUpper_inj (a % 16) (by omega) (b % 16) (by omega) (by
          have := (List.cons.injEq _ _ _ _ ▸ h).2
          exact (List.cons.injEq _ _ _ _ ▸ this).1)
      have etail : hexChars as = hexChars bs := by
        have := (List.cons.injEq _ _ _ _ ▸ h).2
        exact (List.cons.injEq _ _ _ _ ▸ this).2
      have eab : a = b := by omega
      rw [eab, hexChars_inj as bs (fun x hx => h1 x (List.mem_cons_of_mem a hx))
        (fun x hx => h2 x (List.mem_cons_of_mem b hx)) etail]

theorem hexChars_length (code : List Nat) : (hexChars code).length = 2 * code.length := by
  induction code with
  | nil => rfl
  | cons a as ih =>
    have hstep : hexChars (a :: as) =
        hexDigitUpper (a / 16) :: hexDigitUpper (a % 16) :: hexChars as := rfl
    rw [hstep]
    simp [ih]
    ring

theorem pyStrLt_iff_lt : ∀ a b : List Char, pyStrLt a b = true ↔ a < b
  | [], [] => by
      refine iff_of_false (by simp [pyStrLt]) (fun h => ?_)
      cases h
  | [], b :: bs => iff_of_true rfl List.Lex.nil
  | a :: as, [] => by
      refine iff_of_false (by simp [pyStrLt]) (fun h => ?_)
      cases h
  | a :: as, b :: bs => by
      by_cases hab : a < b
      · exact iff_of_true (by simp [pyStrLt, hab]) (List.Lex.rel hab)
      · by_cases hba : b < a
        · refine iff_of_false (by simp [pyStrLt, hab, hba]) (fun h => ?_)
          cases h with
          | cons h => exact lt_irrefl a hba
          | rel h => exact hab h
        · have heq : a = b := le_antisymm (not_lt.mp hba) (not_lt.mp hab)
          subst heq
          have step : pyStrLt (a :: as) (a :: bs) = pyStrLt as bs := by
            simp [pyStrLt, hab]
          rw [step, pyStrLt_iff_lt as bs]
          constructor
          · exact fun h => List.Lex.cons h
          · intro h
            cases h with
            | cons h => exact h
            | rel h => exact absurd h hab

/-! ## Claim theorems -/

/-- C1, counterexample: an image named `MP51_2017-25.scap` is not routed
through the MP51 forward-scan branch of `GUID.search`, contrary to the claim:
its name's text before the first underscore is `MP51`, which is in
`oldStyleFWModels`, so `GUID.shouldPerformCheck` fails and `main` skips
`GUID.search` entirely. -/
theorem c1_counterexample :
    route "MP51_2017-25.scap".data = ScanRoute.skipTable ∧
      ScanRoute.skipTable ≠ ScanRoute.mp51Scan := by decide

/-- C1 (amended): every firmware image whose file name begins with `MP51`
followed by an underscore is routed to the skip path: identifier-table
extraction is bypassed entirely, so the image goes through neither the
legacy-UUID forward scan nor the fixed-candidate-offset path.  (The MP51
branch of `GUID.search` is reachable only for names starting with `MP51`
whose underscore prefix is not exactly `MP51`, such as `MP512_x.scap`.) -/
theorem c1_mp51_routing (rest : List Char) :
    route ("MP51_".data ++ rest) = ScanRoute.skipTable := by
  have e : "MP51_".data ++ rest = "MP51".data ++ '_' :: rest := rfl
  have hsp : GUID.shouldPerformCheck ("MP51_".data ++ rest) = false := by
    rw [e]
    unfold GUID.shouldPerformCheck
    rw [pySplit_append '_' "MP51".data rest (by decide)]
    simp only [List.headD_cons]
    decide
  unfold route
  rw [hsp]
  simp

/-- C3, the code evaluated at the failing input: the token `IMP11` is mapped
to `iMac1,1`, not to `iMacPro1,1`, because `Model.getID` tests
`startswith('IM')` before `startswith('IMP')`, making the iMacPro branch
unreachable for every token (any string starting with IMP also starts with
IM). -/
theorem c3_imp_prefix_bug :
    Model.getID "IMP11".data = "iMac1,1".data ∧
      Model.getID "IMP11".data ≠ "iMacPro1,1".data := by decide

/-- C4: the marker scan of `EFI.getVersion` moves backward in 4-byte steps
for starting offsets above 4096 and finds a marker placed at `o - 4k` when no
earlier scanned offset holds a false match, and moves forward in 4-byte steps
for starting offsets at most 4096, finding a marker placed at `o + 4k`. -/
theorem c4_scan_direction (buf : List Nat) (o k fuel : Nat) (hf : k < fuel) :
    (4096 < o → 4 * k ≤ o →
      (∀ j, j < k → readBytes buf (o - 4 * j) 8 ≠ ibiosiMarker) →
      readBytes buf (o - 4 * k) 8 = ibiosiMarker →
      findMarker buf o fuel = some (o - 4 * k)) ∧
    (o ≤ 4096 →
      (∀ j, j < k → readBytes buf (o + 4 * j) 8 ≠ ibiosiMarker) →
      readBytes buf (o + 4 * k) 8 = ibiosiMarker →
      findMarker buf o fuel = some (o + 4 * k)) := by
  constructor
  · intro ho hk hj hm
    rw [findMarker, if_pos ho]
    exact scanBack_finds buf k o fuel hf hk hj hm
  · intro ho hj hm
    rw [findMarker, if_neg (by omega)]
    exact scanFwd_finds buf k o fuel hf hj hm

theorem c4_witness :
    findMarker ibiosiMarker 4100 1026 = some (4100 - 4 * 1025) ∧
      findMarker (List.replicate 12 0 ++ ibiosiMarker) 0 4 = some (0 + 4 * 3) :=
  ⟨(c4_scan_direction ibiosiMarker 4100 1025 1026 (by decide)).1 (by decide) (by decide)
      (by decide) (by decide),
    (c4_scan_direction (List.replicate 12 0 ++ ibiosiMarker) 0 3 4 (by decide)).2 (by decide)
      (by decide) (by decide)⟩

/-- C9, the code evaluated at the failing input: on a 16-byte all-zero image
(pattern A absent) the MP51 branch of `GUID.search` never exits, whatever the
iteration budget: once the position reaches `filesize - 8` it stops advancing,
but the loop keeps re-reading at the end of the file, where every 16-byte read
is empty and never equals the pattern.  The claim's bounded termination with
an `AnchorNotFound` report is the documented intent; the code's bound check
only stops the position from advancing and never breaks the loop. -/
theorem c9_mp51_scan_diverges :
    ∀ (fuel position fp : Nat),
      mp51ScanFuel (List.replicate 16 0) 16 fuel position fp = none := by
  intro fuel
  induction fuel with
  | zero => intro p f; rfl
  | succ n ih =>
    intro p f
    have hne : ¬ readBytes (List.replicate 16 0) f 16 = patternA := by
      intro h
      have h9 : (9 : Nat) ∈ readBytes (List.replicate 16 0) f 16 := by
        rw [h]; decide
      have h0 : (9 : Nat) ∈ List.replicate 16 (0 : Nat) :=
        List.mem_of_mem_drop (List.mem_of_mem_take h9)
      simp at h0
    show (if readBytes (List.replicate 16 0) f 16 = patternA then some p
      else if p < 16 - 8 then
        mp51ScanFuel (List.replicate 16 0) 16 n (p + 4) (p + 4)
      else
        mp51ScanFuel (List.replicate 16 0) 16 n p
          (min (f + 16) (List.replicate 16 (0 : Nat)).length)) = none
    rw [if_neg hne]
    split
    · exact ih _ _
    · exact ih _ _

/-- C5: for every buffer and anchor position, `BoardID.getIDs` walking a
table whose first `n ≤ 14` slots hold valid (non-sentinel) codes returns
exactly those codes in file order, rendered as board-ids; a sentinel is
required at the next slot only when `n < 14`, so a table of 5 valid codes
followed by the sentinel yields exactly those 5, and a table of 14 valid
codes with no sentinel yields all 14 and stops at the iteration cap.  Slot
`i` is read at `anchor + 28 + i * stride`, where the stride is 10 with the
trailing-bytes flag and 8 without. -/
theorem c5_table_walk (buf : List Nat) (p : Nat) (t : Bool) (cs : List (List Nat))
    (hlen : cs.length ≤ 14)
    (hvalid : ∀ i, i < cs.length →
      readBytes buf (p + 28 + i * slotStride t) 8 = cs.getD i [] ∧
        cs.getD i [] ≠ ffSentinel)
    (hstop : cs.length < 14 →
      readBytes buf (p + 28 + cs.length * slotStride t) 8 = ffSentinel) :
    BoardID.getIDs buf p t = cs.map renderBoardID := by
  have e : p + 20 + 8 = p + 28 := by omega
  unfold BoardID.getIDs
  rw [getIDsAux_spec buf t cs 14 (p + 20) hlen
    (fun i h => by rw [e]; exact hvalid i h)
    (fun h => by rw [e]; exact hstop h)]

theorem c5_witness :
    BoardID.getIDs
      (List.replicate 28 0 ++
        ((List.replicate 7 0 ++ [1]) ++ ((List.replicate 7 0 ++ [2]) ++
        ((List.replicate 7 0 ++ [3]) ++ ((List.replicate 7 0 ++ [4]) ++
        ((List.replicate 7 0 ++ [5]) ++ ffSentinel)))))) 0 false =
      [List.replicate 7 0 ++ [1], List.replicate 7 0 ++ [2], List.replicate 7 0 ++ [3],
        List.replicate 7 0 ++ [4], List.replicate 7 0 ++ [5]].map renderBoardID :=
  c5_table_walk
    (List.replicate 28 0 ++
      ((List.replicate 7 0 ++ [1]) ++ ((List.replicate 7 0 ++ [2]) ++
      ((List.replicate 7 0 ++ [3]) ++ ((List.replicate 7 0 ++ [4]) ++
      ((List.replicate 7 0 ++ [5]) ++ ffSentinel)))))) 0 false
    [List.replicate 7 0 ++ [1], List.replicate 7 0 ++ [2], List.replicate 7 0 ++ [3],
      List.replicate 7 0 ++ [4], List.replicate 7 0 ++ [5]]
    (by decide) (by decide) (by decide)

/-- C6: for every pair in the static table whose model name occurs exactly
once in the table, mapping the board-id to its model name with
`Model.getByBoardID` and back with `BoardID.getByModelID` returns the
original board-id. -/
theorem c6_roundtrip :
    ∀ p ∈ boardIDModelIDs,
      boardIDModelIDs.countP (fun x => x.2 == p.2) = 1 →
      BoardID.getByModelID (Model.getByBoardID p.1) = p.1 := by
  decide

theorem c6_witness :
    BoardID.getByModelID (Model.getByBoardID "Mac-F22C8AC8") = "Mac-F22C8AC8" :=
  c6_roundtrip ("Mac-F22C8AC8", "MacBook6,1") (by decide) (by decide)

/-- C7: on a Darwin host, `EFI.shouldWarnAboutUpdate` returns true exactly
when the reference version's fifth dot-delimited field is lexicographically
(by code point) less than the candidate's fifth field with its NUL characters
removed; in particular reference date 1706010000 against candidate date
1708080133 warns, and equal dates do not. -/
theorem c7_update_advisor :
    (∀ rawVersion biosID : List Char,
      4 < (pySplit '.' rawVersion).length → 4 < (pySplit '.' biosID).length →
      (EFI.shouldWarnAboutUpdate true rawVersion biosID = true ↔
        (pySplit '.' rawVersion).getD 4 [] <
          ((pySplit '.' biosID).getD 4 []).filter (fun c => c ≠ '\x00'))) ∧
    EFI.shouldWarnAboutUpdate true "UNSPEC.00Z.0000.B00.1706010000".data
      "IM101.88Z.00CF.B00.1708080133".data = true ∧
    EFI.shouldWarnAboutUpdate true "UNSPEC.00Z.0000.B00.1706010000".data
      "IM101.88Z.00CF.B00.1706010000".data = false := by
  refine ⟨fun raw bios _ _ => ?_, by decide, by decide⟩
  exact pyStrLt_iff_lt ((pySplit '.' raw).getD 4 [])
    (((pySplit '.' bios).getD 4 []).filter (fun c => c ≠ '\x00'))

theorem c7_witness :
    EFI.shouldWarnAboutUpdate true "UNSPEC.00Z.0000.B00.1706010000".data
        "IM101.88Z.00CF.B00.1708080133".data = true ↔
      (pySplit '.' "UNSPEC.00Z.0000.B00.1706010000".data).getD 4 [] <
        ((pySplit '.' "IM101.88Z.00CF.B00.1708080133".data).getD 4 []).filter
          (fun c => c ≠ '\x00') :=
  c7_update_advisor.1 "UNSPEC.00Z.0000.B00.1706010000".data
    "IM101.88Z.00CF.B00.1708080133".data (by decide) (by decide)

/-- C2, counterexample: on a buffer holding the marker followed by the
example well-formed 65-byte record, `EFI.getVersion` returns the raw record
with its NUL separator bytes still embedded — not the dot-delimited 5-field
string with the NULs collapsed that the claim describes. -/
theorem c2_counterexample :
    EFI.getVersion (ibiosiMarker ++ exampleRecord) 0 1 = some exampleRecord ∧
      exampleRecord.filter (fun b => b ≠ 0) = joinWith 0x2E exampleFields ∧
      EFI.getVersion (ibiosiMarker ++ exampleRecord) 0 1 ≠
        some (joinWith 0x2E exampleFields) := by decide

/-- C2 (amended): for every buffer containing the marker at a position the
scan reaches from the starting offset with no earlier false match — backward
in 4-byte steps from starting offsets above 4096 (the `.fd` path), forward in
4-byte steps otherwise — followed by a well-formed 65-byte record whose
NUL-filtered content is the dot-joined list of 5 dot-free fields,
`EFI.getVersion` returns the raw 65-byte record (NUL bytes retained, not
collapsed), and collapsing the NULs and splitting on the dots recovers
exactly the 5 original fields. -/
theorem c2_version_record (buf : List Nat) (o k fuel : Nat) (record : List Nat)
    (fields : List (List Nat)) (hf : k < fuel)
    (hreach :
      (4096 < o ∧ 4 * k ≤ o ∧
        (∀ j, j < k → readBytes buf (o - 4 * j) 8 ≠ ibiosiMarker) ∧
        readBytes buf (o - 4 * k) 8 = ibiosiMarker ∧
        readBytes buf (o - 4 * k + 8) 0x41 = record) ∨
      (o ≤ 4096 ∧
        (∀ j, j < k → readBytes buf (o + 4 * j) 8 ≠ ibiosiMarker) ∧
        readBytes buf (o + 4 * k) 8 = ibiosiMarker ∧
        readBytes buf (o + 4 * k + 8) 0x41 = record))
    (_hrecLen : record.length = 65)
    (hfields : fields.length = 5)
    (hfield : ∀ f ∈ fields, f ≠ [] ∧ (0x2E : Nat) ∉ f)
    (hcontent : record.filter (fun b => b ≠ 0) = joinWith 0x2E fields) :
    EFI.getVersion buf o fuel = some record ∧
      pySplit (0x2E : Nat) (record.filter (fun b => b ≠ 0)) = fields := by
  constructor
  · unfold EFI.getVersion
    rcases hreach with ⟨ho, hk, hnomatch, hmark, hrec⟩ | ⟨ho, hnomatch, hmark, hrec⟩
    · rw [show findMarker buf o fuel = some (o - 4 * k) from by
        rw [findMarker, if_pos ho]
        exact scanBack_finds buf k o fuel hf hk hnomatch hmark]
      simp [hrec]
    · rw [show findMarker buf o fuel = some (o + 4 * k) from by
        rw [findMarker, if_neg (by omega)]
        exact scanFwd_finds buf k o fuel hf hnomatch hmark]
      simp [hrec]
  · rw [hcontent]
    refine pySplit_joinWith 0x2E fields ?_ (fun f hf2 => (hfield f hf2).2)
    intro hnil
    rw [hnil] at hfields
    simp at hfields

theorem c2_witness :
    (EFI.getVersion (ibiosiMarker ++ exampleRecord) 0 2 = some exampleRecord ∧
      pySplit (0x2E : Nat) (exampleRecord.filter (fun b => b ≠ 0)) = exampleFields) ∧
    (EFI.getVersion (ibiosiMarker ++ exampleRecord) 4100 1026 = some exampleRecord ∧
      pySplit (0x2E : Nat) (exampleRecord.filter (fun b => b ≠ 0)) = exampleFields) :=
  ⟨c2_version_record (ibiosiMarker ++ exampleRecord) 0 0 2 exampleRecord exampleFields
      (by decide) (Or.inr (by decide)) (by decide) (by decide) (by decide) (by decide),
    c2_version_record (ibiosiMarker ++ exampleRecord) 4100 1025 1026 exampleRecord
      exampleFields (by decide) (Or.inl (by decide)) (by decide) (by decide) (by decide)
      (by decide)⟩

/-- C8, counterexample: on the empty buffer every slot read is an empty
(short) read, which is not the sentinel, so `BoardID.getIDs` emits the
4-character identifier `Mac-` with no hexadecimal digits at all — the claim's
"exactly 16 uppercase hexadecimal characters" fails for this buffer and
anchor position. -/
theorem c8_counterexample :
    "Mac-".data ∈ BoardID.getIDs ([] : List Nat) 0 false ∧
      ("Mac-".data).length ≠ 20 := by decide

/-- C8 (amended): every identifier returned by `BoardID.getIDs` is rendered
from a non-sentinel code read from the table; when the buffer consists of
genuine byte values and every table slot lies inside the buffer
(anchor + 166 bytes), each identifier is exactly `Mac-` followed by 16
uppercase hexadecimal characters, and no identifier is the rendering of the
all-0xFF sentinel (short reads at the end of the file, as in the
counterexample, yield fewer hexadecimal characters). -/
theorem c8_identifier_shape (buf : List Nat) (p : Nat) (t : Bool) (s : List Char)
    (hb : ∀ b ∈ buf, b < 256) (hcov : p + 166 ≤ buf.length)
    (hmem : s ∈ BoardID.getIDs buf p t) :
    (∃ code, code ≠ ffSentinel ∧ s = renderBoardID code) ∧
      s.length = 20 ∧ s.take 4 = "Mac-".data ∧
      (∀ c ∈ s.drop 4, isUpperHex c = true) ∧
      s ≠ "Mac-FFFFFFFFFFFFFFFF".data := by
  unfold BoardID.getIDs at hmem
  obtain ⟨code, hcode, rfl⟩ := List.mem_map.mp hmem
  obtain ⟨i, hi14, hcodeEq, hns⟩ := getIDsAux_mem buf t 14 (p + 20) code hcode
  have hst : slotStride t ≤ 10 := by cases t <;> simp [slotStride]
  have hmul : i * slotStride t ≤ 130 := by
    calc i * slotStride t ≤ 13 * 10 := Nat.mul_le_mul (by omega) hst
    _ = 130 := by norm_num
  have hinb : p + 20 + 8 + i * slotStride t + 8 ≤ buf.length := by omega
  have hclen : code.length = 8 := by
    rw [hcodeEq]
    unfold readBytes
    rw [List.length_take, List.length_drop]
    omega
  have hcb : ∀ b ∈ code, b < 256 := by
    intro b hbm
    rw [hcodeEq] at hbm
    exact hb b (List.mem_of_mem_drop (List.mem_of_mem_take hbm))
  refine ⟨⟨code, hns, rfl⟩, ?_, ?_, ?_, ?_⟩
  · show (renderBoardID code).length = 20
    unfold renderBoardID
    rw [List.length_append, hexChars_length, hclen]
    decide
  · show (renderBoardID code).take 4 = "Mac-".data
    unfold renderBoardID
    exact List.take_left' (by decide)
  · show ∀ c ∈ (renderBoardID code).drop 4, isUpperHex c = true
    unfold renderBoardID
    rw [List.drop_left' (show ("Mac-".data).length = 4 from by decide)]
    intro c hcdrop
    obtain ⟨b, hbcode, hcin⟩ := List.mem_flatMap.mp hcdrop
    have hb256 : b < 256 := hcb b hbcode
    rcases List.mem_cons.mp hcin with h1 | h1
    · rw [h1]
      exact hexDigitUpper_isUpperHex (b / 16) (by omega)
    · rw [List.mem_singleton.mp h1]
      exact hexDigitUpper_isUpperHex (b % 16) (by omega)
  · show renderBoardID code ≠ "Mac-FFFFFFFFFFFFFFFF".data
    intro heq
    apply hns
    apply hexChars_inj code ffSentinel hcb (by decide)
    have hsplit : "Mac-FFFFFFFFFFFFFFFF".data =
        "Mac-".data ++ "FFFFFFFFFFFFFFFF".data := by decide
    have hFF : "FFFFFFFFFFFFFFFF".data = hexChars ffSentinel := by decide
    unfold renderBoardID at heq
    rw [hsplit] at heq
    rw [List.append_cancel_left heq, hFF]

theorem c8_witness :
    (∃ code, code ≠ ffSentinel ∧
        "Mac-0000000000000001".data = renderBoardID code) ∧
      ("Mac-0000000000000001".data).length = 20 ∧
      ("Mac-0000000000000001".data).take 4 = "Mac-".data ∧
      (∀ c ∈ ("Mac-0000000000000001".data).drop 4, isUpperHex c = true) ∧
      "Mac-0000000000000001".data ≠ "Mac-FFFFFFFFFFFFFFFF".data :=
  c8_identifier_shape sampleTableImage 0 false "Mac-0000000000000001".data
    (by decide) (by decide) (by decide)

/-- C10: for every token with no digit characters at all whose letters match
one of the recognized family prefixes, `Model.getID` returns the family name
followed by a comma with empty major and minor parts (never Unknown): tokens
starting with IM give `iMac,` (this also covers IMP tokens, since the IM test
fires first), MBP gives `MacBookPro,`, MBA gives `MacBookAir,`, MB with
neither MBP nor MBA gives `MacBook,`, MM gives `Macmini,`, and MP gives
`MacPro,`. -/
theorem c10_no_digit_token (tok : List Char) (hnd : tok.filter Char.isDigit = []) :
    (pyStartswith "IM".data tok = true → Model.getID tok = "iMac,".data) ∧
    (pyStartswith "MBP".data tok = true → Model.getID tok = "MacBookPro,".data) ∧
    (pyStartswith "MBA".data tok = true → Model.getID tok = "MacBookAir,".data) ∧
    (pyStartswith "MB".data tok = true → pyStartswith "MBP".data tok = false →
      pyStartswith "MBA".data tok = false → Model.getID tok = "MacBook,".data) ∧
    (pyStartswith "MM".data tok = true → Model.getID tok = "Macmini,".data) ∧
    (pyStartswith "MP".data tok = true → Model.getID tok = "MacPro,".data) := by
  refine ⟨?_, ?_, ?_, ?_, ?_, ?_⟩
  · intro h
    obtain ⟨u, rfl⟩ := (pyStartswith_iff _ _).mp h
    show Model.getID ('I' :: 'M' :: u) = "iMac,".data
    have hnd2 : List.filter Char.isDigit u = [] := hnd
    have e : Model.getID ('I' :: 'M' :: u) =
        "iMac".data ++ (List.filter Char.isDigit u).take
            ((List.filter Char.isDigit u).length - 1) ++ [','] ++
          (List.filter Char.isDigit u).drop
            ((List.filter Char.isDigit u).length - 1) := rfl
    rw [e, hnd2]
    decide
  · intro h
    obtain ⟨u, rfl⟩ := (pyStartswith_iff _ _).mp h
    show Model.getID ('M' :: 'B' :: 'P' :: u) = "MacBookPro,".data
    have hnd2 : List.filter Char.isDigit u = [] := hnd
    have e : Model.getID ('M' :: 'B' :: 'P' :: u) =
        "MacBookPro".data ++ (List.filter Char.isDigit u).take
            ((List.filter Char.isDigit u).length - 1) ++ [','] ++
          (List.filter Char.isDigit u).drop
            ((List.filter Char.isDigit u).length - 1) := rfl
    rw [e, hnd2]
    decide
  · intro h
    obtain ⟨u, rfl⟩ := (pyStartswith_iff _ _).mp h
    show Model.getID ('M' :: 'B' :: 'A' :: u) = "MacBookAir,".data
    have hnd2 : List.filter Char.isDigit u = [] := hnd
    have e : Model.getID ('M' :: 'B' :: 'A' :: u) =
        "MacBookAir".data ++ (List.filter Char.isDigit u).take
            ((List.filter Char.isDigit u).length - 1) ++ [','] ++
          (List.filter Char.isDigit u).drop
            ((List.filter Char.isDigit u).length - 1) := rfl
    rw [e, hnd2]
    decide
  · intro h hP hA
    obtain ⟨u, rfl⟩ := (pyStartswith_iff _ _).mp h
    have hP2 : pyStartswith "MBP".data ('M' :: 'B' :: u) = false := hP
    have hA2 : pyStartswith "MBA".data ('M' :: 'B' :: u) = false := hA
    show Model.getID ('M' :: 'B' :: u) = "MacBook,".data
    have hnd2 : List.filter Char.isDigit u = [] := hnd
    have e : Model.getID ('M' :: 'B' :: u) =
        (if pyStartswith "MBP".data ('M' :: 'B' :: u) then
          "MacBookPro".data ++ (List.filter Char.isDigit u).take
              ((List.filter Char.isDigit u).length - 1) ++ [','] ++
            (List.filter Char.isDigit u).drop
              ((List.filter Char.isDigit u).length - 1)
        else if pyStartswith "MBA".data ('M' :: 'B' :: u) then
          "MacBookAir".data ++ (List.filter Char.isDigit u).take
              ((List.filter Char.isDigit u).length - 1) ++ [','] ++
            (List.filter Char.isDigit u).drop
              ((List.filter Char.isDigit u).length - 1)
        else
          "MacBook".data ++ (List.filter Char.isDigit u).take
              ((List.filter Char.isDigit u).length - 1) ++ [','] ++
            (List.filter Char.isDigit u).drop
              ((List.filter Char.isDigit u).length - 1)) := rfl
    rw [e]
    simp only [hP2, hA2, Bool.false_eq_true, if_false]
    rw [hnd2]
    decide
  · intro h
    obtain ⟨u, rfl⟩ := (pyStartswith_iff _ _).mp h
    show Model.getID ('M' :: 'M' :: u) = "Macmini,".data
    have hnd2 : List.filter Char.isDigit u = [] := hnd
    have e : Model.getID ('M' :: 'M' :: u) =
        "Macmini".data ++ (List.filter Char.isDigit u).take
            ((List.filter Char.isDigit u).length - 1) ++ [','] ++
          (List.filter Char.isDigit u).drop
            ((List.filter Char.isDigit u).length - 1) := rfl
    rw [e, hnd2]
    decide
  · intro h
    obtain ⟨u, rfl⟩ := (pyStartswith_iff _ _).mp h
    show Model.getID ('M' :: 'P' :: u) = "MacPro,".data
    have hnd2 : List.filter Char.isDigit u = [] := hnd
    have e : Model.getID ('M' :: 'P' :: u) =
        "MacPro".data ++ (List.filter Char.isDigit u).take
            ((List.filter Char.isDigit u).length - 1) ++ [','] ++
          (List.filter Char.isDigit u).drop
            ((List.filter Char.isDigit u).length - 1) := rfl
    rw [e, hnd2]
    decide

theorem c10_witness :
    Model.getID "IM".data = "iMac,".data ∧ Model.getID "MB".data = "MacBook,".data :=
  ⟨(c10_no_digit_token "IM".data (by decide)).1 (by decide),
    (c10_no_digit_token "MB".data (by decide)).2.2.2.1 (by decide) (by decide) (by decide)⟩

end EFIVer
